import Mathlib

/-!
Verification of the admission-control core of the daisy-tw-worker-d1-drizzle
repository: the single-use invitation-code ledger, the waitlist ledger, the
retry wrapper around data access, and two route handlers (`useLayout` flash
messages and the gated/interest sign-up page).

The repository's `src/` snapshot contains the route files
`src/routes/buildLayout.tsx` and `src/routes/auth/build-gated-interest-sign-up.tsx`
(embedded below from their source), while the data-access layer
(`src/lib/db-access.ts`: `claimSingleUseCode`, `addInterestedEmail`,
`withRetry`) and the gated sign-up handlers are absent from the snapshot —
only review documents describing them are present.  Those operations are
therefore modelled from the specification (spec.md §3, §4.1–§4.3), as noted
on each definition.
-/

namespace Daisy

/-- Tagged result of an admission attempt (spec §3, `AdmissionOutcome`). -/
inductive AdmissionOutcome : Type where
  | Claimed : AdmissionOutcome
  | AlreadyClaimedOrInvalid : AdmissionOutcome
  | AlreadyOnWaitlist : AdmissionOutcome
  | JoinedWaitlist : AdmissionOutcome
  | TransientFailure : String → AdmissionOutcome
  | PermanentFailure : String → AdmissionOutcome
deriving DecidableEq, Repr

/-- A row of the `singleUseCode` table (spec §3 `InvitationCode`): `code` is
the primary key, `email` is the nullable claimant column (`none` = unclaimed). -/
structure CodeRow : Type where
  code : String
  email : Option String
deriving DecidableEq, Repr

/-- The `WHERE code = ? AND email IS NULL` predicate of the atomic claim. -/
def matchesUnclaimed (code : String) (r : CodeRow) : Bool :=
  decide (r.code = code ∧ r.email = none)

/-- Primary-key well-formedness of the `singleUseCode` table: the `code`
column values are pairwise distinct. -/
def codesNodup (rows : List CodeRow) : Prop :=
  (rows.map CodeRow.code).Nodup

instance instDecidableCodesNodup (rows : List CodeRow) : Decidable (codesNodup rows) :=
  List.nodupDecidable (rows.map CodeRow.code)

/-- Modelled from the spec: `claimSingleUseCode` of `src/lib/db-access.ts`
is absent from the `src/` snapshot.  Spec §4.1 and §6 describe it as the
single atomic conditional update
`UPDATE singleUseCode SET email = ? WHERE code = ? AND email IS NULL`
returning the number of rows affected.  The table is a list of rows; the
update rewrites every matching row and reports how many rows matched. -/
def claimSingleUseCode (rows : List CodeRow) (code claimant : String) :
    List CodeRow × Nat :=
  (rows.map fun r =>
      if matchesUnclaimed code r then { r with email := some claimant } else r,
   rows.countP (matchesUnclaimed code))

/-- Modelled from the spec: `claimCode(code, claimant) → AdmissionOutcome`
(spec §4.1): the claim succeeds iff exactly one row was transitioned by the
atomic update; zero rows affected yields `AlreadyClaimedOrInvalid`. -/
def claimCode (rows : List CodeRow) (code claimant : String) :
    List CodeRow × AdmissionOutcome :=
  let u := claimSingleUseCode rows code claimant
  (u.1, if u.2 = 1 then .Claimed else .AlreadyClaimedOrInvalid)

/-- Linearization of K concurrent `claimCode(C, *)` invocations on the same
code: since each claim is a single atomic conditional update (spec §4.1,
§5), an arbitrary concurrent execution is equivalent to running the calls
in some sequential order; `runClaims` runs them in the given order and
collects each invocation's outcome. -/
def runClaims (rows : List CodeRow) (code : String) :
    List String → List CodeRow × List AdmissionOutcome
  | [] => (rows, [])
  | cl :: cls =>
    let step := claimCode rows code cl
    let rest := runClaims step.1 code cls
    (rest.1, step.2 :: rest.2)

/-- Modelled from the spec: `addInterestedEmail` of `src/lib/db-access.ts`
is absent from the `src/` snapshot.  Spec §4.2 describes `joinWaitlist` as a
single atomic insert whose uniqueness is enforced by the storage layer's key
constraint on `email`: the insert is rejected exactly when a row with that
key already exists, and that rejection is mapped to `AlreadyOnWaitlist`. -/
def addInterestedEmail (rows : List String) (email : String) :
    List String × AdmissionOutcome :=
  if email ∈ rows then (rows, .AlreadyOnWaitlist)
  else (rows ++ [email], .JoinedWaitlist)

/-- Runs a sequence of waitlist joins, keeping the final table. -/
def runJoins (rows : List String) : List String → List String
  | [] => rows
  | e :: es => runJoins (addInterestedEmail rows e).1 es

/-- Result of one pass through the gated sign-up orchestration. -/
inductive SignUpFlowResult : Type where
  | accountCreated : SignUpFlowResult
  | downstreamFailed : SignUpFlowResult
  | rejectedInvalidCode : SignUpFlowResult
deriving DecidableEq, Repr

/-- Modelled from the spec: the gated sign-up handlers
(`src/routes/auth/handle-gated-sign-up.ts`, `handle-gated-interest-sign-up.ts`)
are absent from the `src/` snapshot.  Spec §4.1/§4.4: the claim is persisted
first; only on `Claimed` is the external account-creation step attempted
(here a Boolean oracle for its success); a downstream failure performs no
rollback of the claim. -/
def gatedSignUpFlow (rows : List CodeRow) (code claimant : String)
    (accountCreationSucceeds : Bool) : List CodeRow × SignUpFlowResult :=
  let res := claimCode rows code claimant
  match res.2 with
  | .Claimed =>
      (res.1, if accountCreationSucceeds then .accountCreated else .downstreamFailed)
  | _ => (res.1, .rejectedInvalidCode)

/-- The ledger state: the two tables owned by the Admission Control Ledger
(spec §3): `singleUseCode` rows and `interestedEmails` rows. -/
structure LedgerState : Type where
  codes : List CodeRow
  waitlist : List String
deriving DecidableEq, Repr

/-- The two ledger operations of spec §4.1/§4.2. -/
inductive LedgerOp : Type where
  | claim : String → String → LedgerOp
  | join : String → LedgerOp
deriving DecidableEq, Repr

/-- Modelled from the spec: the ledger exclusively owns reads/writes to the
two tables (spec §3 Ownership), and its only mutations are the atomic claim
and the atomic join; `applyOp` executes one of them on the ledger state. -/
def applyOp (s : LedgerState) : LedgerOp → LedgerState × AdmissionOutcome
  | .claim code claimant =>
    let r := claimCode s.codes code claimant
    (LedgerState.mk r.1 s.waitlist, r.2)
  | .join email =>
    let r := addInterestedEmail s.waitlist email
    (LedgerState.mk s.codes r.1, r.2)

/-- Runs a sequence of ledger operations, keeping the final state. -/
def runOps (s : LedgerState) : List LedgerOp → LedgerState
  | [] => s
  | op :: ops => runOps (applyOp s op).1 ops

/-- Raw result of one invocation of a wrapped operation: it either returns
a tagged outcome value or raises a language-level exception (spec §4.3
names both signalling channels). -/
inductive OpResult : Type where
  | returns : AdmissionOutcome → OpResult
  | raises : String → OpResult
deriving DecidableEq, Repr

/-- Modelled from the spec: the wrapper works against one unified failure
representation (spec §9): a raised storage-layer exception is classified as
a transient infrastructure failure carrying its message, and a returned
outcome keeps its own classification. -/
def classify : OpResult → AdmissionOutcome
  | .returns o => o
  | .raises msg => .TransientFailure msg

/-- A transient infrastructure failure, the only retryable class (spec §7). -/
def isTransient : AdmissionOutcome → Bool
  | .TransientFailure _ => true
  | _ => false

/-- Any failure outcome, transient or permanent; everything else is a
well-defined business outcome or success (spec §7 taxonomy). -/
def isFailure : AdmissionOutcome → Bool
  | .TransientFailure _ => true
  | .PermanentFailure _ => true
  | _ => false

/-- Modelled from the spec: `withRetry` of `src/lib/db-access.ts` is absent
from the `src/` snapshot.  Spec §4.3: the wrapper invokes the operation,
retries when — and only when — the classified outcome is a transient
failure and attempts remain, and otherwise returns the classified outcome
as is.  `withRetryAux op start fuel` runs the attempts numbered from
`start` with `fuel` attempts allowed, returning the final outcome and the
number of invocations performed. -/
def withRetryAux (op : Nat → OpResult) (start : Nat) :
    Nat → AdmissionOutcome × Nat
  | 0 => (.PermanentFailure "retry budget exhausted", 0)
  | 1 => (classify (op start), 1)
  | fuel + 2 =>
    let r := classify (op start)
    if isTransient r then
      let rest := withRetryAux op (start + 1) (fuel + 1)
      (rest.1, rest.2 + 1)
    else (r, 1)

/-- Modelled from the spec: the retry wrapper entry point with its
configured attempt bound (spec §4.3 `maxAttempts`; backoff delays do not
affect the outcome/attempt-count semantics modelled here). -/
def withRetry (maxAttempts : Nat) (op : Nat → OpResult) :
    AdmissionOutcome × Nat :=
  withRetryAux op 0 maxAttempts

/-- Simulated flaky operation for the C2 witness: attempt 0 raises, attempt
1 returns a transient failure value, attempt 2 returns the success. -/
def demoFlakyOp : Nat → OpResult
  | 0 => .raises "d1 timeout"
  | 1 => .returns (.TransientFailure "d1 busy")
  | _ => .returns .Claimed

/-- Simulated operation that deterministically returns the business outcome
`AlreadyClaimedOrInvalid`, for the C7 witness. -/
def demoBusinessOp : Nat → OpResult :=
  fun _ => .returns .AlreadyClaimedOrInvalid

/-- Simulated operation that fails permanently on every invocation. -/
def demoPermanentOp : Nat → OpResult :=
  fun _ => .returns (.PermanentFailure "malformed input")

/-- Simulated operation that fails transiently on every invocation. -/
def demoTransientOp : Nat → OpResult :=
  fun _ => .raises "d1 down"

/-- Cookie-name constant `COOKIES.MESSAGE_FOUND` (`src/constants.ts` is
absent from the snapshot; the literal is a placeholder, only the constant's
identity matters). -/
def MESSAGE_FOUND : String := "MESSAGE_FOUND"

/-- Cookie-name constant `COOKIES.ERROR_FOUND` (placeholder literal, as for
`MESSAGE_FOUND`). -/
def ERROR_FOUND : String := "ERROR_FOUND"

/-- JavaScript truthiness of a string-valued cookie read: `undefined` and
the empty string are falsy, every other string is truthy. -/
def jsTruthy : Option String → Bool
  | none => false
  | some s => decide (s ≠ "")

/-- JavaScript `a || b` on optional strings. -/
def jsOr (a b : Option String) : Option String :=
  if jsTruthy a then a else b

/-- An optional string holds a present, nonempty value. -/
def presentNonempty (v : Option String) : Prop :=
  ∃ s, v = some s ∧ s ≠ ""

/-- Observable effect of one `useLayout` call: the alert contents rendered
into the page and the cookies removed on the response. -/
structure LayoutEffect : Type where
  renderedMessage : Option String
  renderedError : Option String
  removedCookies : List String
deriving DecidableEq, Repr

/-- Embedded from `src/routes/buildLayout.tsx` (`useLayout`): the handler
computes `message = retrieveCookie(c, MESSAGE_FOUND) || extraMessage`,
removes the MESSAGE_FOUND cookie when `message` is truthy, reads
ERROR_FOUND and removes it when its value is truthy, and renders the truthy
values as the success/error alerts.  `retrieveCookie`/`removeCookie`
(`src/lib/cookie-support.ts`, absent from the snapshot) are modelled as a
lookup in the request cookie jar and as recording the cookie name among the
removals on the response. -/
def useLayout (reqCookie : String → Option String)
    (extraMessage : Option String) : LayoutEffect :=
  let message := jsOr (reqCookie MESSAGE_FOUND) extraMessage
  let error := reqCookie ERROR_FOUND
  { renderedMessage := if jsTruthy message then message else none,
    renderedError := if jsTruthy error then error else none,
    removedCookies :=
      (if jsTruthy message then [MESSAGE_FOUND] else []) ++
      (if jsTruthy error then [ERROR_FOUND] else []) }

/-- Request cookie jar carrying both flash cookies with empty values, for
the C9 counterexample. -/
def emptyFlashCookies : String → Option String :=
  fun n =>
    if n = MESSAGE_FOUND then some ""
    else if n = ERROR_FOUND then some "" else none

/-- Request cookie jar with a nonempty MESSAGE_FOUND cookie only, for the
amended C9 witness. -/
def demoMessageCookie : String → Option String :=
  fun n => if n = MESSAGE_FOUND then some "Saved." else none

/-- Route-path constant `PATHS.PRIVATE` (`src/constants.ts` is absent from
the snapshot; placeholder literal, identity is what matters). -/
def PRIVATE_PATH : String := "/private"

/-- Flash-message constant `MESSAGES.ALREADY_SIGNED_IN` (placeholder
literal, as for `PRIVATE_PATH`). -/
def ALREADY_SIGNED_IN : String := "ALREADY_SIGNED_IN"

/-- Response of the GET sign-up route built by `buildGatedInterestSignUp`. -/
inductive SignUpPageResponse : Type where
  | redirectWithMessage : String → String → SignUpPageResponse
  | renderSignUpForm : String → SignUpPageResponse
deriving DecidableEq, Repr

/-- Embedded from `src/routes/auth/build-gated-interest-sign-up.tsx`
(`buildGatedInterestSignUp`): the GET handler checks the better-auth `user`
of the request context; when present it returns
`redirectWithMessage(c, PATHS.PRIVATE, MESSAGES.ALREADY_SIGNED_IN)`;
otherwise it reads the EMAIL_ENTERED cookie (defaulting to the empty string
via the `?? ''` fallback) and renders the combined sign-up form with it. -/
def buildGatedInterestSignUpGet (user : Option String)
    (emailEnteredCookie : Option String) : SignUpPageResponse :=
  match user with
  | some _ => .redirectWithMessage PRIVATE_PATH ALREADY_SIGNED_IN
  | none => .renderSignUpForm (emailEnteredCookie.getD "")

/-- With distinct primary keys, a present unclaimed row is matched by the
claim predicate exactly once. -/
theorem countP_matchesUnclaimed_eq_one {rows : List CodeRow} {code : String}
    (hnd : codesNodup rows) (hmem : CodeRow.mk code none ∈ rows) :
    rows.countP (matchesUnclaimed code) = 1 := by
  induction rows with
  | nil => cases hmem
  | cons r rs ih =>
    have hnd' : r.code ∉ rs.map CodeRow.code ∧ codesNodup rs := by
      simpa [codesNodup] using hnd
    rcases List.mem_cons.mp hmem with hr | hrs
    · have hmatch : matchesUnclaimed code r = true := by
        simp [matchesUnclaimed, ← hr]
      have hzero : rs.countP (matchesUnclaimed code) = 0 := by
        refine List.countP_eq_zero.mpr ?_
        intro a ha hma
        have hac : a.code = code := by
          have := of_decide_eq_true hma
          exact this.1
        have : r.code ∈ rs.map CodeRow.code := by
          rw [← hr] at hnd' ⊢
          simpa [hac] using List.mem_map_of_mem CodeRow.code ha
        exact hnd'.1 this
      simp [List.countP_cons, hmatch, hzero]
    · have hcode_in : code ∈ rs.map CodeRow.code := by
        simpa using List.mem_map_of_mem CodeRow.code hrs
      have hne : r.code ≠ code := fun h => hnd'.1 (h ▸ hcode_in)
      have hmatch : matchesUnclaimed code r = false := by
        simp [matchesUnclaimed, hne]
      simp [List.countP_cons, hmatch, ih hnd'.2 hrs]

/-- With distinct primary keys the atomic update affects at most one row. -/
theorem countP_matchesUnclaimed_le_one {rows : List CodeRow} {code : String}
    (hnd : codesNodup rows) :
    rows.countP (matchesUnclaimed code) ≤ 1 := by
  induction rows with
  | nil => simp
  | cons r rs ih =>
    have hnd' : r.code ∉ rs.map CodeRow.code ∧ codesNodup rs := by
      simpa [codesNodup] using hnd
    by_cases hm : matchesUnclaimed code r = true
    · have hrc : r.code = code := (of_decide_eq_true hm).1
      have hzero : rs.countP (matchesUnclaimed code) = 0 := by
        refine List.countP_eq_zero.mpr ?_
        intro a ha hma
        have hac : a.code = code := (of_decide_eq_true hma).1
        exact hnd'.1 (by simpa [hrc, hac] using List.mem_map_of_mem CodeRow.code ha)
      simp [List.countP_cons, hm, hzero]
    · have hle := ih hnd'.2
      have hmf : matchesUnclaimed code r = false := by simpa using hm
      simpa [List.countP_cons, hmf] using hle

/-- If no row matches a predicate, the conditional rewrite is the identity. -/
theorem map_ite_of_countP_zero {rows : List CodeRow} {p : CodeRow → Bool}
    {f : CodeRow → CodeRow} (h : rows.countP p = 0) :
    (rows.map fun r => if p r then f r else r) = rows := by
  induction rows with
  | nil => rfl
  | cons r rs ih =>
    have h' : (p r = false) ∧ rs.countP p = 0 := by
      by_cases hp : p r = true
      · simp [List.countP_cons, hp] at h
      · refine ⟨by simpa using hp, ?_⟩
        simpa [List.countP_cons, hp] using h
    simp [h'.1, ih h'.2]

/-- After the atomic update runs, no row of the resulting table matches the
unclaimed predicate for that code any more (the matched row was claimed;
unmatched rows are unchanged). -/
theorem countP_after_claim (rows : List CodeRow) (code claimant : String) :
    (claimSingleUseCode rows code claimant).1.countP (matchesUnclaimed code) = 0 := by
  refine List.countP_eq_zero.mpr ?_
  intro a ha hma
  rcases List.mem_map.mp ha with ⟨r, _, hr⟩
  by_cases hm : matchesUnclaimed code r = true
  · rw [← hr, if_pos hm] at hma
    simp [matchesUnclaimed] at hma
  · rw [← hr, if_neg hm] at hma
    exact hm hma

/-- A successful atomic update stores the claimant in the claimed row. -/
theorem mem_after_claim {rows : List CodeRow} {code : String} (claimant : String)
    (hmem : CodeRow.mk code none ∈ rows) :
    CodeRow.mk code (some claimant) ∈ (claimSingleUseCode rows code claimant).1 := by
  have hmatch : matchesUnclaimed code (CodeRow.mk code none) = true := by
    simp [matchesUnclaimed]
  have := List.mem_map_of_mem
    (fun r => if matchesUnclaimed code r then { r with email := some claimant } else r)
    hmem
  simpa [claimSingleUseCode, hmatch] using this

/-- A positive match count exhibits the unclaimed row. -/
theorem mem_of_countP_pos {rows : List CodeRow} {code : String}
    (h : 0 < rows.countP (matchesUnclaimed code)) :
    CodeRow.mk code none ∈ rows := by
  rcases List.countP_pos_iff.mp h with ⟨r, hr, hm⟩
  have hprop := of_decide_eq_true hm
  have : r = CodeRow.mk code none := by
    cases r
    simp_all
  exact this ▸ hr

/-- A claim against a table with no matching unclaimed row reports
`AlreadyClaimedOrInvalid`. -/
theorem claimCode_snd_of_countP_zero {rows : List CodeRow} {code : String}
    (h : rows.countP (matchesUnclaimed code) = 0) (cl : String) :
    (claimCode rows code cl).2 = .AlreadyClaimedOrInvalid := by
  simp [claimCode, claimSingleUseCode, h]

/-- Once no row matches the unclaimed predicate, every further claim on
that code leaves the table unchanged and reports `AlreadyClaimedOrInvalid`. -/
theorem runClaims_of_countP_zero {rows : List CodeRow} {code : String}
    (h : rows.countP (matchesUnclaimed code) = 0) (cls : List String) :
    runClaims rows code cls =
      (rows, List.replicate cls.length .AlreadyClaimedOrInvalid) := by
  induction cls with
  | nil => rfl
  | cons cl cls ih =>
    have hstep : claimCode rows code cl = (rows, .AlreadyClaimedOrInvalid) := by
      simp [claimCode, claimSingleUseCode, h, map_ite_of_countP_zero h]
    simp [runClaims, hstep, ih, List.replicate_succ]

/-- Unfolding equation for `runClaims` on a nonempty claimant list. -/
theorem runClaims_cons (rows : List CodeRow) (code cl : String) (cls : List String) :
    runClaims rows code (cl :: cls) =
      ((runClaims (claimCode rows code cl).1 code cls).1,
       (claimCode rows code cl).2 :: (runClaims (claimCode rows code cl).1 code cls).2) :=
  rfl

/-- The first projection of a claim is the table left by the atomic update. -/
theorem claimCode_fst (rows : List CodeRow) (code cl : String) :
    (claimCode rows code cl).1 = (claimSingleUseCode rows code cl).1 :=
  rfl

/-- C1: for every code C and every K ≥ 1 concurrent invocations of
`claimCode(C, *)`, exactly one invocation returns `Claimed` and the other
K − 1 return `AlreadyClaimedOrInvalid`, and afterwards the stored
`InvitationCode` row for C records the single winning claimant.  Each claim
is one atomic conditional update, so a concurrent execution is an arbitrary
linearization order, quantified here by the claimant list `cl :: cls`. -/
theorem claim_exactly_once_under_concurrency (rows : List CodeRow)
    (code cl : String) (cls : List String)
    (hnd : codesNodup rows) (hmem : CodeRow.mk code none ∈ rows) :
    (runClaims rows code (cl :: cls)).2 =
        .Claimed :: List.replicate cls.length .AlreadyClaimedOrInvalid ∧
    (runClaims rows code (cl :: cls)).2.count .Claimed = 1 ∧
    (runClaims rows code (cl :: cls)).2.count .AlreadyClaimedOrInvalid =
        (cl :: cls).length - 1 ∧
    CodeRow.mk code (some cl) ∈ (runClaims rows code (cl :: cls)).1 := by
  have hone := countP_matchesUnclaimed_eq_one hnd hmem
  have hzero := countP_after_claim rows code cl
  have hrest := runClaims_of_countP_zero hzero cls
  have hstep2 : (claimCode rows code cl).2 = .Claimed := by
    simp [claimCode, claimSingleUseCode, hone]
  have hrun : runClaims rows code (cl :: cls) =
      ((claimSingleUseCode rows code cl).1,
        .Claimed :: List.replicate cls.length .AlreadyClaimedOrInvalid) := by
    rw [runClaims_cons, claimCode_fst, hrest, hstep2]
  refine ⟨by rw [hrun], ?_, ?_, ?_⟩
  · rw [hrun]
    simp [List.count_cons, List.count_replicate]
  · rw [hrun]
    simp [List.count_cons, List.count_replicate]
  · rw [hrun]
    exact mem_after_claim cl hmem

/-- Witness for C1 at a concrete two-row table and three racing claimants. -/
theorem claim_exactly_once_under_concurrency_witness :
    (runClaims [CodeRow.mk "CODE-A" none, CodeRow.mk "CODE-B" (some "prior@x")]
        "CODE-A" ("ann@x" :: ["bob@x", "cam@x"])).2 =
        .Claimed :: List.replicate ["bob@x", "cam@x"].length .AlreadyClaimedOrInvalid ∧
    (runClaims [CodeRow.mk "CODE-A" none, CodeRow.mk "CODE-B" (some "prior@x")]
        "CODE-A" ("ann@x" :: ["bob@x", "cam@x"])).2.count .Claimed = 1 ∧
    (runClaims [CodeRow.mk "CODE-A" none, CodeRow.mk "CODE-B" (some "prior@x")]
        "CODE-A" ("ann@x" :: ["bob@x", "cam@x"])).2.count .AlreadyClaimedOrInvalid =
        ("ann@x" :: ["bob@x", "cam@x"]).length - 1 ∧
    CodeRow.mk "CODE-A" (some "ann@x") ∈
      (runClaims [CodeRow.mk "CODE-A" none, CodeRow.mk "CODE-B" (some "prior@x")]
        "CODE-A" ("ann@x" :: ["bob@x", "cam@x"])).1 :=
  claim_exactly_once_under_concurrency
    [CodeRow.mk "CODE-A" none, CodeRow.mk "CODE-B" (some "prior@x")]
    "CODE-A" "ann@x" ["bob@x", "cam@x"] (by decide) (by decide)

/-- C5: `claimCode(C, claimant)` returns `Claimed` iff a row for C exists
with `claimedBy` null at the moment of the update; in every other case
(C missing, or C already claimed — an indistinguishable one-constructor
failure) it returns `AlreadyClaimedOrInvalid` and leaves the table
untouched; after a success the claimant is stored and any repeated claim
returns `AlreadyClaimedOrInvalid`, never a second `Claimed`. -/
theorem claimCode_outcome_characterization (rows : List CodeRow)
    (code claimant claimant2 : String) (hnd : codesNodup rows) :
    ((claimCode rows code claimant).2 = .Claimed ↔ CodeRow.mk code none ∈ rows) ∧
    ((claimCode rows code claimant).2 = .Claimed ∨
      (claimCode rows code claimant).2 = .AlreadyClaimedOrInvalid) ∧
    ((claimCode rows code claimant).2 = .AlreadyClaimedOrInvalid →
      (claimCode rows code claimant).1 = rows) ∧
    ((claimCode rows code claimant).2 = .Claimed →
      CodeRow.mk code (some claimant) ∈ (claimCode rows code claimant).1 ∧
      (claimCode ((claimCode rows code claimant).1) code claimant2).2 =
        .AlreadyClaimedOrInvalid) := by
  by_cases hc : rows.countP (matchesUnclaimed code) = 1
  · have hout : (claimCode rows code claimant).2 = .Claimed := by
      simp [claimCode, claimSingleUseCode, hc]
    have hmem : CodeRow.mk code none ∈ rows := mem_of_countP_pos (by omega)
    refine ⟨⟨fun _ => hmem, fun _ => hout⟩, Or.inl hout, fun hbad => ?_, fun _ => ?_⟩
    · simp [hout] at hbad
    · refine ⟨mem_after_claim claimant hmem, ?_⟩
      rw [claimCode_fst]
      exact claimCode_snd_of_countP_zero (countP_after_claim rows code claimant) claimant2
  · have hout : (claimCode rows code claimant).2 = .AlreadyClaimedOrInvalid := by
      simp [claimCode, claimSingleUseCode, hc]
    have hle := @countP_matchesUnclaimed_le_one rows code hnd
    have hzero : rows.countP (matchesUnclaimed code) = 0 := by omega
    have hnomem : CodeRow.mk code none ∉ rows := fun hmem =>
      hc (countP_matchesUnclaimed_eq_one hnd hmem)
    refine ⟨⟨fun hcl => ?_, fun hmem => absurd hmem hnomem⟩, Or.inr hout,
      fun _ => ?_, fun hcl => ?_⟩
    · simp [hout] at hcl
    · exact map_ite_of_countP_zero hzero
    · simp [hout] at hcl

/-- Witness for C5 on a concrete table holding one unclaimed code. -/
theorem claimCode_outcome_characterization_witness :
    ((claimCode [CodeRow.mk "GOLD" none] "GOLD" "eve@x").2 = .Claimed ↔
      CodeRow.mk "GOLD" none ∈ [CodeRow.mk "GOLD" none]) ∧
    ((claimCode [CodeRow.mk "GOLD" none] "GOLD" "eve@x").2 = .Claimed ∨
      (claimCode [CodeRow.mk "GOLD" none] "GOLD" "eve@x").2 = .AlreadyClaimedOrInvalid) ∧
    ((claimCode [CodeRow.mk "GOLD" none] "GOLD" "eve@x").2 = .AlreadyClaimedOrInvalid →
      (claimCode [CodeRow.mk "GOLD" none] "GOLD" "eve@x").1 = [CodeRow.mk "GOLD" none]) ∧
    ((claimCode [CodeRow.mk "GOLD" none] "GOLD" "eve@x").2 = .Claimed →
      CodeRow.mk "GOLD" (some "eve@x") ∈ (claimCode [CodeRow.mk "GOLD" none] "GOLD" "eve@x").1 ∧
      (claimCode ((claimCode [CodeRow.mk "GOLD" none] "GOLD" "eve@x").1) "GOLD" "fay@x").2 =
        .AlreadyClaimedOrInvalid) :=
  claimCode_outcome_characterization [CodeRow.mk "GOLD" none] "GOLD" "eve@x" "fay@x"
    (by decide)

/-- A single join preserves distinctness of the waitlist emails. -/
theorem addInterestedEmail_nodup {rows : List String} (email : String)
    (h : rows.Nodup) : (addInterestedEmail rows email).1.Nodup := by
  by_cases hmem : email ∈ rows
  · simpa [addInterestedEmail, hmem] using h
  · simp [addInterestedEmail, hmem, List.nodup_append, h]

/-- Any sequence of joins preserves distinctness of the waitlist emails. -/
theorem runJoins_nodup {rows : List String} (h : rows.Nodup)
    (joins : List String) : (runJoins rows joins).Nodup := by
  induction joins generalizing rows with
  | nil => exact h
  | cons e es ih => exact ih (addInterestedEmail_nodup e h)

/-- C4: `joinWaitlist(E)` relies on the storage key constraint alone: it
returns `JoinedWaitlist` exactly when a new row is inserted (the key was
absent), `AlreadyOnWaitlist` exactly when the insert is rejected by the
uniqueness constraint (the key was present, table untouched), and starting
from a duplicate-free table, at most one row for E ever exists after any
sequence of joins. -/
theorem joinWaitlist_unique_constraint (rows : List String) (email : String) :
    ((addInterestedEmail rows email).2 = .JoinedWaitlist ↔ email ∉ rows) ∧
    ((addInterestedEmail rows email).2 = .AlreadyOnWaitlist ↔ email ∈ rows) ∧
    ((addInterestedEmail rows email).2 = .JoinedWaitlist →
      (addInterestedEmail rows email).1 = rows ++ [email]) ∧
    ((addInterestedEmail rows email).2 = .AlreadyOnWaitlist →
      (addInterestedEmail rows email).1 = rows) ∧
    (rows.Nodup → ∀ joins : List String, (runJoins rows joins).count email ≤ 1) := by
  refine ⟨?_, ?_, ?_, ?_, fun h joins => ?_⟩
  · by_cases hmem : email ∈ rows <;> simp [addInterestedEmail, hmem]
  · by_cases hmem : email ∈ rows <;> simp [addInterestedEmail, hmem]
  · by_cases hmem : email ∈ rows <;> simp [addInterestedEmail, hmem]
  · by_cases hmem : email ∈ rows <;> simp [addInterestedEmail, hmem]
  · exact List.nodup_iff_count_le_one.mp (runJoins_nodup h joins) email

/-- Witness for C4 with a fresh email joining a one-entry table. -/
theorem joinWaitlist_unique_constraint_witness :
    ((addInterestedEmail ["first@x"] "second@x").2 = .JoinedWaitlist ↔
      "second@x" ∉ ["first@x"]) ∧
    ((addInterestedEmail ["first@x"] "second@x").2 = .AlreadyOnWaitlist ↔
      "second@x" ∈ ["first@x"]) ∧
    ((addInterestedEmail ["first@x"] "second@x").2 = .JoinedWaitlist →
      (addInterestedEmail ["first@x"] "second@x").1 = ["first@x"] ++ ["second@x"]) ∧
    ((addInterestedEmail ["first@x"] "second@x").2 = .AlreadyOnWaitlist →
      (addInterestedEmail ["first@x"] "second@x").1 = ["first@x"]) ∧
    (List.Nodup ["first@x"] → ∀ joins : List String,
      (runJoins ["first@x"] joins).count "second@x" ≤ 1) :=
  joinWaitlist_unique_constraint ["first@x"] "second@x"

/-- C3: a successful claim is persisted before the downstream
account-creation step, and a downstream failure does not undo it: when
`claimCode` returned `Claimed` and account creation then fails, the flow
ends with the claimed row still stored, and any repeated `claimCode` on the
same code returns `AlreadyClaimedOrInvalid` — the code stays consumed. -/
theorem claim_survives_downstream_failure (rows : List CodeRow)
    (code claimant claimant2 : String)
    (h : (claimCode rows code claimant).2 = .Claimed) :
    gatedSignUpFlow rows code claimant false =
      ((claimCode rows code claimant).1, .downstreamFailed) ∧
    CodeRow.mk code (some claimant) ∈ (gatedSignUpFlow rows code claimant false).1 ∧
    (claimCode (gatedSignUpFlow rows code claimant false).1 code claimant2).2 =
      .AlreadyClaimedOrInvalid := by
  have hc : rows.countP (matchesUnclaimed code) = 1 := by
    by_contra hc
    simp [claimCode, claimSingleUseCode, hc] at h
  have hmem : CodeRow.mk code none ∈ rows := mem_of_countP_pos (by omega)
  have hflow : gatedSignUpFlow rows code claimant false =
      ((claimSingleUseCode rows code claimant).1, .downstreamFailed) := by
    simp [gatedSignUpFlow, h, claimCode_fst]
  refine ⟨by rw [hflow, claimCode_fst], ?_, ?_⟩
  · rw [hflow]
    exact mem_after_claim claimant hmem
  · rw [hflow]
    exact claimCode_snd_of_countP_zero (countP_after_claim rows code claimant) claimant2

/-- Witness for C3: the claim wins on a one-row table, account creation
fails, and the re-claim by a different requester is rejected. -/
theorem claim_survives_downstream_failure_witness :
    gatedSignUpFlow [CodeRow.mk "VIP" none] "VIP" "gail@x" false =
      ((claimCode [CodeRow.mk "VIP" none] "VIP" "gail@x").1, .downstreamFailed) ∧
    CodeRow.mk "VIP" (some "gail@x") ∈
      (gatedSignUpFlow [CodeRow.mk "VIP" none] "VIP" "gail@x" false).1 ∧
    (claimCode (gatedSignUpFlow [CodeRow.mk "VIP" none] "VIP" "gail@x" false).1
        "VIP" "hank@x").2 = .AlreadyClaimedOrInvalid :=
  claim_survives_downstream_failure [CodeRow.mk "VIP" none] "VIP" "gail@x" "hank@x"
    (by decide)

/-- One ledger operation never disturbs a row that is already claimed. -/
theorem claimedRow_preserved_step (s : LedgerState) (op : LedgerOp)
    (c w : String) (h : CodeRow.mk c (some w) ∈ s.codes) :
    CodeRow.mk c (some w) ∈ (applyOp s op).1.codes := by
  cases op with
  | claim code claimant =>
    show CodeRow.mk c (some w) ∈ s.codes.map
      (fun r => if matchesUnclaimed code r then { r with email := some claimant } else r)
    exact List.mem_map.mpr ⟨CodeRow.mk c (some w), h, by simp [matchesUnclaimed]⟩
  | join email => exact h

/-- C6: every `InvitationCode` row transitions from unclaimed to claimed at
most once and that is the only mutation any ledger operation performs on it:
a claimed row is never unclaimed, never reassigned, and never deleted, so it
persists as an audit trail through every sequence of ledger operations; each
single operation either keeps a row intact or claims an unclaimed one. -/
theorem code_transitions_at_most_once (s : LedgerState) (ops : List LedgerOp)
    (c w : String) :
    (CodeRow.mk c (some w) ∈ s.codes →
      CodeRow.mk c (some w) ∈ (runOps s ops).codes) ∧
    (∀ op : LedgerOp, ∃ f : CodeRow → CodeRow,
      (applyOp s op).1.codes = s.codes.map f ∧
      ∀ r : CodeRow, f r = r ∨
        (r.email = none ∧ ∃ cl, f r = { r with email := some cl })) := by
  constructor
  · induction ops generalizing s with
    | nil => exact fun h => h
    | cons op ops ih =>
      exact fun h => ih (applyOp s op).1 (claimedRow_preserved_step s op c w h)
  · intro op
    cases op with
    | claim code claimant =>
      refine ⟨fun r =>
        if matchesUnclaimed code r then { r with email := some claimant } else r,
        rfl, fun r => ?_⟩
      by_cases hm : matchesUnclaimed code r = true
      · exact Or.inr ⟨(of_decide_eq_true hm).2, claimant, by simp [hm]⟩
      · exact Or.inl (by simp [hm])
    | join email =>
      exact ⟨id, by simp [applyOp], fun r => Or.inl rfl⟩

/-- Witness for C6: a claimed row survives a hostile re-claim and a join. -/
theorem code_transitions_at_most_once_witness :
    (CodeRow.mk "USED" (some "won@x") ∈
        (LedgerState.mk [CodeRow.mk "USED" (some "won@x")] []).codes →
      CodeRow.mk "USED" (some "won@x") ∈
        (runOps (LedgerState.mk [CodeRow.mk "USED" (some "won@x")] [])
          [LedgerOp.claim "USED" "late@x", LedgerOp.join "w@x"]).codes) ∧
    (∀ op : LedgerOp, ∃ f : CodeRow → CodeRow,
      (applyOp (LedgerState.mk [CodeRow.mk "USED" (some "won@x")] []) op).1.codes =
        (LedgerState.mk [CodeRow.mk "USED" (some "won@x")] []).codes.map f ∧
      ∀ r : CodeRow, f r = r ∨
        (r.email = none ∧ ∃ cl, f r = { r with email := some cl })) :=
  code_transitions_at_most_once (LedgerState.mk [CodeRow.mk "USED" (some "won@x")] [])
    [LedgerOp.claim "USED" "late@x", LedgerOp.join "w@x"] "USED" "won@x"

/-- A non-transient classified outcome is returned after one invocation,
for any positive remaining budget. -/
theorem withRetryAux_of_not_transient {op : Nat → OpResult} {start : Nat}
    (h : isTransient (classify (op start)) = false) (fuel : Nat)
    (hfuel : 1 ≤ fuel) : withRetryAux op start fuel = (classify (op start), 1) := by
  match fuel with
  | 1 => rfl
  | n + 2 => simp [withRetryAux, h]

/-- A transient classified outcome with budget remaining causes a retry. -/
theorem withRetryAux_of_transient {op : Nat → OpResult} {start : Nat}
    (h : isTransient (classify (op start)) = true) (fuel : Nat)
    (hfuel : 2 ≤ fuel) :
    withRetryAux op start fuel =
      ((withRetryAux op (start + 1) (fuel - 1)).1,
       (withRetryAux op (start + 1) (fuel - 1)).2 + 1) := by
  match fuel with
  | n + 2 => simp [withRetryAux, h]

/-- C2: the retry wrapper retries on the outcome's failure classification,
not only on thrown exceptions: an operation whose first two invocations are
classified transient — whether they raised or returned a failure value —
and whose third invocation is not a failure makes `withRetry` (with budget
at least 3) return that third outcome after exactly 3 invocations. -/
theorem withRetry_two_transient_then_success (op : Nat → OpResult)
    (maxAttempts : Nat)
    (h0 : isTransient (classify (op 0)) = true)
    (h1 : isTransient (classify (op 1)) = true)
    (h2 : isFailure (classify (op 2)) = false)
    (hm : 3 ≤ maxAttempts) :
    withRetry maxAttempts op = (classify (op 2), 3) := by
  have h2t : isTransient (classify (op 2)) = false := by
    cases hcl : classify (op 2) <;> simp_all [isTransient, isFailure]
  have e0 := withRetryAux_of_transient h0 maxAttempts (by omega)
  have e1 := withRetryAux_of_transient h1 (maxAttempts - 1) (by omega)
  have e2 := withRetryAux_of_not_transient h2t (maxAttempts - 1 - 1) (by omega)
  rw [withRetry, e0]
  rw [show (0 : Nat) + 1 = 1 from rfl]
  rw [e1]
  rw [show (1 : Nat) + 1 = 2 from rfl]
  rw [e2]

/-- Witness for C2: first attempt raises, second returns a transient
failure value, third returns the success outcome; exactly 3 invocations. -/
theorem withRetry_two_transient_then_success_witness :
    isTransient (classify (demoFlakyOp 0)) = true ∧
    isTransient (classify (demoFlakyOp 1)) = true ∧
    isFailure (classify (demoFlakyOp 2)) = false ∧
    withRetry 5 demoFlakyOp = (classify (demoFlakyOp 2), 3) :=
  ⟨by decide, by decide, by decide,
    withRetry_two_transient_then_success demoFlakyOp 5
      (by decide) (by decide) (by decide) (by omega)⟩

/-- C7: an operation that returns a well-defined business outcome (such as
`AlreadyClaimedOrInvalid` or `AlreadyOnWaitlist`) is invoked exactly once:
the wrapper returns the outcome immediately, consuming no retry attempt. -/
theorem withRetry_business_outcome_no_retry (op : Nat → OpResult)
    (b : AdmissionOutcome) (maxAttempts : Nat)
    (h0 : op 0 = .returns b) (hb : isFailure b = false)
    (hm : 1 ≤ maxAttempts) :
    withRetry maxAttempts op = (b, 1) := by
  have hcl : classify (op 0) = b := by rw [h0]; rfl
  have hbt : isTransient (classify (op 0)) = false := by
    rw [hcl]
    cases b <;> simp_all [isTransient, isFailure]
  rw [withRetry, withRetryAux_of_not_transient hbt maxAttempts hm, hcl]

/-- Witness for C7: the deterministic `AlreadyClaimedOrInvalid` operation is
invoked exactly once even with a budget of 4 attempts. -/
theorem withRetry_business_outcome_no_retry_witness :
    demoBusinessOp 0 = .returns .AlreadyClaimedOrInvalid ∧
    isFailure AdmissionOutcome.AlreadyClaimedOrInvalid = false ∧
    withRetry 4 demoBusinessOp = (.AlreadyClaimedOrInvalid, 1) :=
  ⟨rfl, by decide,
    withRetry_business_outcome_no_retry demoBusinessOp .AlreadyClaimedOrInvalid 4
      rfl (by decide) (by omega)⟩

/-- C8 counterexample: an operation that fails (permanently) on every
invocation is invoked only once, not `maxAttempts` times: with a budget of
3 the wrapper returns after 1 invocation (the cause is preserved, but the
claimed invocation count is wrong for a non-transient failure, which spec
§4.3/§7 forbid retrying). -/
theorem withRetry_always_failing_counterexample :
    isFailure (classify (demoPermanentOp 0)) = true ∧
    withRetry 3 demoPermanentOp = (.PermanentFailure "malformed input", 1) ∧
    (withRetry 3 demoPermanentOp).2 ≠ 3 := by decide

/-- Exhausting the budget against always-transient failures performs every
allowed attempt and surfaces the final attempt's classified failure. -/
theorem withRetryAux_all_transient {op : Nat → OpResult}
    (h : ∀ i, isTransient (classify (op i)) = true) :
    ∀ fuel start, 1 ≤ fuel →
      withRetryAux op start fuel = (classify (op (start + fuel - 1)), fuel)
  | 0, start, hf => absurd hf (by omega)
  | 1, start, _ => by simp [withRetryAux]
  | (n + 2), start, _ => by
    have ih := withRetryAux_all_transient h (n + 1) (start + 1) (by omega)
    rw [withRetryAux_of_transient (h start) (n + 2) (by omega)]
    have harith : start + 1 + (n + 1) - 1 = start + (n + 2) - 1 := by omega
    rw [harith] at ih
    rw [show (n + 2) - 1 = n + 1 from rfl, ih]

/-- C8 (amended): for every wrapped operation that fails transiently on all
invocations, `withRetry` invokes it exactly `maxAttempts` times and then
returns the classified failure of the final attempt — the operation's own
failure with classification and message intact, not a generic wrapper
error.  (An operation failing permanently is surfaced after one invocation,
per the counterexample.) -/
theorem withRetry_exhaustion_preserves_failure (op : Nat → OpResult)
    (maxAttempts : Nat) (hm : 1 ≤ maxAttempts)
    (h : ∀ i, isTransient (classify (op i)) = true) :
    withRetry maxAttempts op = (classify (op (maxAttempts - 1)), maxAttempts) ∧
    isTransient (withRetry maxAttempts op).1 = true := by
  have e := withRetryAux_all_transient h maxAttempts 0 hm
  rw [show (0 + maxAttempts - 1) = maxAttempts - 1 from by omega] at e
  constructor
  · exact e
  · show isTransient (withRetryAux op 0 maxAttempts).1 = true
    rw [e]
    exact h (maxAttempts - 1)

/-- Witness for the amended C8: the always-transiently-failing operation is
invoked 3 of 3 allowed times and its own failure is surfaced. -/
theorem withRetry_exhaustion_preserves_failure_witness :
    withRetry 3 demoTransientOp = (classify (demoTransientOp (3 - 1)), 3) ∧
    isTransient (withRetry 3 demoTransientOp).1 = true :=
  withRetry_exhaustion_preserves_failure demoTransientOp 3 (by omega)
    (fun _ => rfl)

/-- Truthiness of an optional string coincides with present-and-nonempty. -/
theorem jsTruthy_iff_presentNonempty (v : Option String) :
    jsTruthy v = true ↔ presentNonempty v := by
  cases v with
  | none => simp [jsTruthy, presentNonempty]
  | some s => simp [jsTruthy, presentNonempty]

/-- Truthiness of the JavaScript or-else is the disjunction of the sides. -/
theorem jsTruthy_jsOr (a b : Option String) :
    jsTruthy (jsOr a b) = (jsTruthy a || jsTruthy b) := by
  by_cases h : jsTruthy a = true <;> simp [jsOr, h]

/-- A truthy optional string is present. -/
theorem isSome_of_jsTruthy {v : Option String} (h : jsTruthy v = true) :
    v.isSome = true := by
  cases v <;> simp_all [jsTruthy]

/-- C9 counterexample: with the MESSAGE_FOUND and ERROR_FOUND cookies both
present (carrying the empty string) and an extraMessage supplied (also
empty), nothing is rendered and neither cookie is removed, against the
claim that presence alone triggers rendering and removal. -/
theorem useLayout_one_shot_counterexample :
    (emptyFlashCookies MESSAGE_FOUND).isSome = true ∧
    (emptyFlashCookies ERROR_FOUND).isSome = true ∧
    (useLayout emptyFlashCookies (some "")).renderedMessage = none ∧
    (useLayout emptyFlashCookies (some "")).renderedError = none ∧
    (useLayout emptyFlashCookies (some "")).removedCookies = [] := by decide

/-- C9 (amended): flash messages are one-shot up to JavaScript truthiness:
the MESSAGE_FOUND cookie is removed exactly when the request carries it
with a nonempty value or a nonempty extraMessage is supplied, and exactly
then a message is rendered; the ERROR_FOUND cookie is removed exactly when
the request carries it with a nonempty value, and exactly then the error is
rendered; `useLayout` removes no cookie other than these two. -/
theorem useLayout_one_shot_flash (reqCookie : String → Option String)
    (extraMessage : Option String) :
    (MESSAGE_FOUND ∈ (useLayout reqCookie extraMessage).removedCookies ↔
      (presentNonempty (reqCookie MESSAGE_FOUND) ∨ presentNonempty extraMessage)) ∧
    ((useLayout reqCookie extraMessage).renderedMessage.isSome = true ↔
      MESSAGE_FOUND ∈ (useLayout reqCookie extraMessage).removedCookies) ∧
    (ERROR_FOUND ∈ (useLayout reqCookie extraMessage).removedCookies ↔
      presentNonempty (reqCookie ERROR_FOUND)) ∧
    ((useLayout reqCookie extraMessage).renderedError.isSome = true ↔
      ERROR_FOUND ∈ (useLayout reqCookie extraMessage).removedCookies) ∧
    (∀ n, n ∈ (useLayout reqCookie extraMessage).removedCookies →
      n = MESSAGE_FOUND ∨ n = ERROR_FOUND) := by
  by_cases hmc : jsTruthy (reqCookie MESSAGE_FOUND) = true <;>
    by_cases hme : jsTruthy extraMessage = true <;>
      by_cases he : jsTruthy (reqCookie ERROR_FOUND) = true <;>
        simp_all [useLayout, jsTruthy_jsOr, ← jsTruthy_iff_presentNonempty,
          MESSAGE_FOUND, ERROR_FOUND, isSome_of_jsTruthy]

/-- Witness for the amended C9 on a request with a nonempty message cookie,
no error cookie, and no extraMessage. -/
theorem useLayout_one_shot_flash_witness :
    (MESSAGE_FOUND ∈ (useLayout demoMessageCookie none).removedCookies ↔
      (presentNonempty (demoMessageCookie MESSAGE_FOUND) ∨ presentNonempty none)) ∧
    ((useLayout demoMessageCookie none).renderedMessage.isSome = true ↔
      MESSAGE_FOUND ∈ (useLayout demoMessageCookie none).removedCookies) ∧
    (ERROR_FOUND ∈ (useLayout demoMessageCookie none).removedCookies ↔
      presentNonempty (demoMessageCookie ERROR_FOUND)) ∧
    ((useLayout demoMessageCookie none).renderedError.isSome = true ↔
      ERROR_FOUND ∈ (useLayout demoMessageCookie none).removedCookies) ∧
    (∀ n, n ∈ (useLayout demoMessageCookie none).removedCookies →
      n = MESSAGE_FOUND ∨ n = ERROR_FOUND) :=
  useLayout_one_shot_flash demoMessageCookie none

/-- C10: for every GET of the sign-up path handled by
`buildGatedInterestSignUp`, a signed-in user is redirected to the private
page carrying the already-signed-in message and never sees the sign-up
form; the form is rendered exactly when no user is present, prefilled from
the EMAIL_ENTERED cookie (empty string when absent). -/
theorem signed_in_user_never_sees_sign_up_form (user : Option String)
    (emailEnteredCookie : Option String) :
    (user.isSome = true →
      buildGatedInterestSignUpGet user emailEnteredCookie =
        .redirectWithMessage PRIVATE_PATH ALREADY_SIGNED_IN) ∧
    (user = none →
      buildGatedInterestSignUpGet user emailEnteredCookie =
        .renderSignUpForm (emailEnteredCookie.getD "")) ∧
    (∀ e, buildGatedInterestSignUpGet user emailEnteredCookie =
        .renderSignUpForm e → user = none) := by
  cases user <;> simp [buildGatedInterestSignUpGet]

/-- Witness for C10 with a signed-in user and a remembered email cookie. -/
theorem signed_in_user_never_sees_sign_up_form_witness :
    ((some "ida@x" : Option String).isSome = true →
      buildGatedInterestSignUpGet (some "ida@x") (some "typed@x") =
        .redirectWithMessage PRIVATE_PATH ALREADY_SIGNED_IN) ∧
    ((some "ida@x" : Option String) = none →
      buildGatedInterestSignUpGet (some "ida@x") (some "typed@x") =
        .renderSignUpForm ((some "typed@x" : Option String).getD "")) ∧
    (∀ e, buildGatedInterestSignUpGet (some "ida@x") (some "typed@x") =
        .renderSignUpForm e → (some "ida@x" : Option String) = none) :=
  signed_in_user_never_sees_sign_up_form (some "ida@x") (some "typed@x")

end Daisy
